import Mathlib

/-!
Shallow embedding of the ray-tracer `rustic_ray` (repository
`ray-tracer-challenge-rust`), covering the chapter-08 `World` pipeline
(`intersect_world`, `shade_hit`, `color_at`, `is_shadow`), the chapter-09
`Plane::local_intersect`, the `Gradient` pattern, the CSG `allowed`
truth table, and the sequential/parallel camera renderer.

Real-number scalars of the source (`f64`) are embedded as `ℚ`.  Because the
library's `Rat.add`/`Rat.mul`/... are `@[irreducible]`, the embedding uses
kernel-reducible wrappers `qadd`/`qsub`/`qmul`/`qdiv` (each provably equal to
the corresponding field operation, see the bridge lemmas) so that concrete
scenes evaluate by `decide`.  The square root of the external numeric library
is modelled by `ratSqrt`, a rational Newton iteration exact on perfect squares
and accurate to about `10⁻⁶` otherwise (the `f64` library sqrt is likewise
approximate; every concrete expectation proved below is robust to this).
-/

deriving instance DecidableEq for Except

namespace RusticRay

/-- Rational addition through `mkRat`; kernel-reducible, equal to `a + b`. -/
def qadd (a b : ℚ) : ℚ := mkRat (a.num * b.den + b.num * a.den) (a.den * b.den)

/-- Rational subtraction through `mkRat`; kernel-reducible, equal to `a - b`. -/
def qsub (a b : ℚ) : ℚ := mkRat (a.num * b.den - b.num * a.den) (a.den * b.den)

/-- Rational multiplication through `mkRat`; kernel-reducible, equal to `a * b`. -/
def qmul (a b : ℚ) : ℚ := mkRat (a.num * b.num) (a.den * b.den)

/-- Rational division through `Rat.divInt`; kernel-reducible, equal to `a / b`
(with the `x / 0 = 0` convention). -/
def qdiv (a b : ℚ) : ℚ := Rat.divInt (a.num * (b.den : Int)) ((a.den : Int) * b.num)

/-- Absolute value, mirroring `f64::abs`; kernel-reducible, equal to `|a|`. -/
def qabs (a : ℚ) : ℚ := if a < 0 then -a else a

/-- Newton iteration for the integer square root, with explicit fuel so that
the kernel can evaluate it. -/
def isqrtGo (n : Nat) : Nat → Nat → Nat
  | guess, 0 => guess
  | guess, fuel+1 =>
    let next := (guess + n / guess) / 2
    if next < guess then isqrtGo n next fuel else guess

/-- Integer square root (rounds down). -/
def isqrt (n : Nat) : Nat :=
  if n ≤ 1 then n else isqrtGo n (n / 2 + 1) n

/-- Modelled from the spec: the square root provided by the out-of-scope
numeric library (`f64::sqrt`).  Exact on perfect squares of rationals such as
the discriminants of the canonical scenes; otherwise accurate to roughly one
part in `10⁶`, matching the approximate nature of the `f64` original.
Nonpositive inputs map to `0`. -/
def ratSqrt (q : ℚ) : ℚ :=
  Rat.divInt (isqrt (q.num.toNat * q.den * 10 ^ 12) : Int) ((q.den : Int) * 10 ^ 6)

/-- Modelled from the spec: the crate-wide epsilon constant `EPSILON`
(`lib.rs` is not among the staged files; spec §9 names `1e-4` as the
exemplar value, and every claim below only needs `0 < EPSILON ≤ 1`). -/
def EPSILON : ℚ := mkRat 1 10000

/-- An RGB color with rational channels, mirroring `Color { red, green, blue }`. -/
structure Color where
  red : ℚ
  green : ℚ
  blue : ℚ
  deriving DecidableEq, Repr

instance : Add Color :=
  ⟨fun a b => ⟨qadd a.red b.red, qadd a.green b.green, qadd a.blue b.blue⟩⟩

instance : Sub Color :=
  ⟨fun a b => ⟨qsub a.red b.red, qsub a.green b.green, qsub a.blue b.blue⟩⟩

instance : Mul Color :=
  ⟨fun a b => ⟨qmul a.red b.red, qmul a.green b.green, qmul a.blue b.blue⟩⟩

instance : HMul Color ℚ Color :=
  ⟨fun c s => ⟨qmul c.red s, qmul c.green s, qmul c.blue s⟩⟩

/-- The `Colors::BLACK` constant. -/
def Colors.BLACK : Color := ⟨0, 0, 0⟩

/-- A 3-vector (`w = 0` tuple of the source's numeric library). -/
structure Vector where
  x : ℚ
  y : ℚ
  z : ℚ
  deriving DecidableEq, Repr

/-- A 3-point (`w = 1` tuple of the source's numeric library). -/
structure Point where
  x : ℚ
  y : ℚ
  z : ℚ
  deriving DecidableEq, Repr

instance : Neg Vector := ⟨fun v => ⟨-v.x, -v.y, -v.z⟩⟩

instance : Sub Vector :=
  ⟨fun a b => ⟨qsub a.x b.x, qsub a.y b.y, qsub a.z b.z⟩⟩

instance : HMul Vector ℚ Vector :=
  ⟨fun v s => ⟨qmul v.x s, qmul v.y s, qmul v.z s⟩⟩

instance : HSub Point Point Vector :=
  ⟨fun a b => ⟨qsub a.x b.x, qsub a.y b.y, qsub a.z b.z⟩⟩

instance : HAdd Point Vector Point :=
  ⟨fun p v => ⟨qadd p.x v.x, qadd p.y v.y, qadd p.z v.z⟩⟩

/-- Modelled from the spec: the numeric library's dot product. -/
def dot (a b : Vector) : ℚ :=
  qadd (qadd (qmul a.x b.x) (qmul a.y b.y)) (qmul a.z b.z)

/-- Modelled from the spec: the numeric library's vector magnitude
(`sqrt` of the self dot product, via `ratSqrt`). -/
def Vector.magnitude (v : Vector) : ℚ := ratSqrt (dot v v)

/-- Modelled from the spec: the numeric library's normalization
(componentwise division by the magnitude). -/
def Vector.normalize (v : Vector) : Vector :=
  ⟨qdiv v.x v.magnitude, qdiv v.y v.magnitude, qdiv v.z v.magnitude⟩

/-- Modelled from the spec: reflection of a vector about a normal. -/
def reflect (v n : Vector) : Vector := v - n * (qmul 2 (dot v n))

/-- A ray: origin point plus direction vector. -/
structure Ray where
  origin : Point
  direction : Vector
  deriving DecidableEq, Repr

/-- Point at parameter `t` along the ray (`Ray::position`). -/
def Ray.position (r : Ray) (t : ℚ) : Point := r.origin + r.direction * t

/-- A homogeneous 4-tuple, used as a matrix row. -/
structure Tuple4 where
  x : ℚ
  y : ℚ
  z : ℚ
  w : ℚ
  deriving DecidableEq, Repr

/-- Dot product of two 4-tuples. -/
def dot4 (a b : Tuple4) : ℚ :=
  qadd (qadd (qmul a.x b.x) (qmul a.y b.y)) (qadd (qmul a.z b.z) (qmul a.w b.w))

/-- A 4×4 matrix given by its rows, mirroring the source's `Matrix`. -/
structure Mat4 where
  r0 : Tuple4
  r1 : Tuple4
  r2 : Tuple4
  r3 : Tuple4
  deriving DecidableEq, Repr

/-- Matrix–tuple multiplication. -/
def Mat4.mulTuple (m : Mat4) (t : Tuple4) : Tuple4 :=
  ⟨dot4 m.r0 t, dot4 m.r1 t, dot4 m.r2 t, dot4 m.r3 t⟩

/-- Matrix applied to a point (`w = 1`, the `w` output dropped as in the
source's affine matrices whose last row is `0 0 0 1`). -/
def Mat4.mulPoint (m : Mat4) (p : Point) : Point :=
  let t := m.mulTuple ⟨p.x, p.y, p.z, 1⟩
  ⟨t.x, t.y, t.z⟩

/-- Matrix applied to a vector (`w = 0`). -/
def Mat4.mulVector (m : Mat4) (v : Vector) : Vector :=
  let t := m.mulTuple ⟨v.x, v.y, v.z, 0⟩
  ⟨t.x, t.y, t.z⟩

/-- Transpose of a 4×4 matrix. -/
def Mat4.transpose (m : Mat4) : Mat4 :=
  ⟨⟨m.r0.x, m.r1.x, m.r2.x, m.r3.x⟩,
   ⟨m.r0.y, m.r1.y, m.r2.y, m.r3.y⟩,
   ⟨m.r0.z, m.r1.z, m.r2.z, m.r3.z⟩,
   ⟨m.r0.w, m.r1.w, m.r2.w, m.r3.w⟩⟩

/-- The identity matrix (`IDENTITY`). -/
def IDENTITY : Mat4 :=
  ⟨⟨1, 0, 0, 0⟩, ⟨0, 1, 0, 0⟩, ⟨0, 0, 1, 0⟩, ⟨0, 0, 0, 1⟩⟩

/-- Scaling matrix (`Transformation::new().scale(x, y, z).build()`). -/
def scaling (x y z : ℚ) : Mat4 :=
  ⟨⟨x, 0, 0, 0⟩, ⟨0, y, 0, 0⟩, ⟨0, 0, z, 0⟩, ⟨0, 0, 0, 1⟩⟩

/-- Transform a ray by a matrix (`Ray::transform`): transform the origin as a
point and the direction as a vector; the parameter `t` itself is untouched. -/
def Ray.transform (r : Ray) (m : Mat4) : Ray :=
  ⟨m.mulPoint r.origin, m.mulVector r.direction⟩

/-- Modelled from the spec: the chapter-08 `Material` (base color plus the
Phong scalars; `material.rs` is not among the staged files).  The `f64`
shininess `200.0` is embedded as the natural exponent `200`. -/
structure Material where
  color : Color
  ambient : ℚ
  diffuse : ℚ
  specular : ℚ
  shininess : Nat
  deriving DecidableEq, Repr

/-- Modelled from the spec: `Material::new()` with the book's defaults. -/
def Material.new : Material :=
  { color := ⟨1, 1, 1⟩, ambient := mkRat 1 10, diffuse := mkRat 9 10,
    specular := mkRat 9 10, shininess := 200 }

/-- A point light: position plus intensity color (`PointLight`). -/
structure PointLight where
  position : Point
  intensity : Color
  deriving DecidableEq, Repr

/-- Modelled from the spec: the Phong `Material::lighting` function
(ambient + diffuse + specular, ambient only when shadowed;
`material.rs` is not among the staged files). -/
def lighting (material : Material) (light : PointLight) (point : Point)
    (eyev normalv : Vector) (in_shadow : Bool) : Color :=
  let effective_color := material.color * light.intensity
  let lightv := (light.position - point).normalize
  let ambient := effective_color * material.ambient
  if in_shadow then ambient
  else
    let light_dot_normal := dot lightv normalv
    if light_dot_normal < 0 then ambient
    else
      let diffuse := effective_color * (qmul material.diffuse light_dot_normal)
      let reflectv := reflect (-lightv) normalv
      let reflect_dot_eye := dot reflectv eyev
      if reflect_dot_eye ≤ 0 then ambient + diffuse
      else
        let factor := reflect_dot_eye ^ material.shininess
        ambient + diffuse + light.intensity * (qmul material.specular factor)

/-- An intersection: parametric distance `t` plus the object hit, generic in
the shape type exactly as the source's `Intersection` borrows the shape. -/
structure Intersection (α : Type) where
  t : ℚ
  object : α
  deriving DecidableEq, Repr

/-- Modelled from the spec: `Intersection::hit` — the lowest non-negative `t`
of an ascending-sorted list (`intersection.rs` is not among the staged
files); `none` when the list is empty or every `t` is negative. -/
def Intersection.hit (xs : List (Intersection α)) : Option (Intersection α) :=
  xs.find? fun i => decide (0 ≤ i.t)

/-- Modelled from the spec: the chapter-08 `Sphere` — a unit sphere with a
transform, its cached inverse, and a material (`sphere.rs` is not among the
staged files; the source computes the inverse of the stored transform, the
embedding carries it alongside). -/
structure Sphere where
  transform : Mat4
  inv_transform : Mat4
  material : Material
  deriving DecidableEq, Repr

/-- Modelled from the spec (§4.1): `Sphere::intersect` — transform the ray
into local space by the cached inverse transform and solve the quadratic;
`none` for a negative discriminant, otherwise the two roots in ascending
order, tagged with the sphere. -/
def Sphere.intersect (s : Sphere) (r : Ray) : Option (List (Intersection Sphere)) :=
  let r2 := r.transform s.inv_transform
  let sphere_to_ray := r2.origin - (⟨0, 0, 0⟩ : Point)
  let a := dot r2.direction r2.direction
  let b := qmul 2 (dot r2.direction sphere_to_ray)
  let c := qsub (dot sphere_to_ray sphere_to_ray) 1
  let discriminant := qsub (qmul b b) (qmul 4 (qmul a c))
  if discriminant < 0 then none
  else
    let sq := ratSqrt discriminant
    some [⟨qdiv (qsub (-b) sq) (qmul 2 a), s⟩,
          ⟨qdiv (qadd (-b) sq) (qmul 2 a), s⟩]

/-- Modelled from the spec (§4.1): `Sphere::normal_at` — local normal mapped
back by the inverse-transpose, renormalized. -/
def Sphere.normal_at (s : Sphere) (world_point : Point) : Vector :=
  let object_point := s.inv_transform.mulPoint world_point
  let object_normal := object_point - (⟨0, 0, 0⟩ : Point)
  let world_normal := s.inv_transform.transpose.mulVector object_normal
  world_normal.normalize

/-- The derived per-hit shading inputs (`Computations`). -/
structure Computations where
  t : ℚ
  object : Sphere
  point : Point
  eyev : Vector
  normalv : Vector
  inside : Bool
  over_point : Point
  deriving DecidableEq, Repr

/-- Modelled from the spec (§3 Computations): `Intersection::prepare_computations`
— hit point, eye vector, normal flipped when inside, and the shadow-offset
point nudged by `EPSILON` along the normal (`intersection.rs` is not among
the staged files). -/
def Intersection.prepare_computations (i : Intersection Sphere) (r : Ray) :
    Computations :=
  let point := r.position i.t
  let eyev := -r.direction
  let normalv0 := i.object.normal_at point
  let inside := decide (dot normalv0 eyev < 0)
  let normalv := if inside then -normalv0 else normalv0
  { t := i.t, object := i.object, point := point, eyev := eyev,
    normalv := normalv, inside := inside,
    over_point := point + normalv * EPSILON }

/-- The chapter-08 `World`: an optional point light plus the owned spheres. -/
structure World where
  light : Option PointLight
  objects : List Sphere
  deriving DecidableEq

/-- Embeds `World::intersect_world` (`chapter_08/src/world.rs:73`): intersect
every object, aggregate the hits, `None` when the aggregate is empty,
otherwise the aggregate stably sorted ascending by `t` (the source's
`sort_by(partial_cmp .. unwrap)` on the finite `f64` distances produced here;
the `NaN` edge of that `unwrap` is studied separately on the `FT` model
below). -/
def World.intersect_world (w : World) (r : Ray) :
    Option (List (Intersection Sphere)) :=
  let xs := w.objects.flatMap fun o => (o.intersect r).getD []
  if xs.isEmpty then none
  else some (xs.insertionSort fun a b => a.t ≤ b.t)

/-- Embeds `World::is_shadow` (`chapter_08/src/world.rs:158`): ray from the
point toward the light (normalized direction), occluded exactly when the hit's
`t` is strictly below the point-to-light distance; a missing light is the
source's `expect` panic, embedded as `Except.error`. -/
def World.is_shadow (w : World) (point : Point) : Except String Bool :=
  match w.light with
  | none => Except.error "No light in world!"
  | some light =>
    let v := light.position - point
    let distance := v.magnitude
    let direction := v.normalize
    let r := Ray.mk point direction
    Except.ok
      (match w.intersect_world r with
       | some intersections =>
         match Intersection.hit intersections with
         | some h => decide (h.t < distance)
         | none => false
       | none => false)

/-- Embeds `World::shade_hit` (`chapter_08/src/world.rs:108`): the shadow test
runs first, at the shadow-offset point `over_point`; then the light is
demanded (`expect`, an error when absent) and Phong lighting is evaluated at
`over_point`. -/
def World.shade_hit (w : World) (comps : Computations) : Except String Color :=
  match w.is_shadow comps.over_point with
  | Except.error e => Except.error e
  | Except.ok shadowed =>
    match w.light with
    | none => Except.error "World has no light source"
    | some light =>
      Except.ok
        (lighting comps.object.material light comps.over_point comps.eyev
          comps.normalv shadowed)

/-- Embeds `World::color_at` (`chapter_08/src/world.rs:140`): intersect, pick
the hit, black when there is none, otherwise shade the prepared hit. -/
def World.color_at (w : World) (r : Ray) : Except String Color :=
  match w.intersect_world r with
  | some xs =>
    match Intersection.hit xs with
    | some i => w.shade_hit (i.prepare_computations r)
    | none => Except.ok Colors.BLACK
  | none => Except.ok Colors.BLACK

/-- Embeds `World::default` (`chapter_08/src/world.rs:217`): light at
`(-10, 10, -10)` with white intensity; an outer unit sphere with color
`(0.8, 1.0, 0.6)`, diffuse `0.7`, specular `0.2`; an inner sphere scaled by
`0.5`. -/
def World.default : World :=
  { light := some { position := ⟨-10, 10, -10⟩, intensity := ⟨1, 1, 1⟩ },
    objects :=
      [ { transform := IDENTITY, inv_transform := IDENTITY,
          material :=
            { Material.new with
              color := ⟨mkRat 4 5, 1, mkRat 3 5⟩,
              diffuse := mkRat 7 10, specular := mkRat 1 5 } },
        { transform := scaling (mkRat 1 2) (mkRat 1 2) (mkRat 1 2),
          inv_transform := scaling 2 2 2,
          material := Material.new } ] }

/-- The chapter-09 `Plane` (the `Uuid` identity is embedded as a number). -/
structure Plane where
  id : Nat
  transform : Mat4
  material : Material
  deriving DecidableEq, Repr

/-- Embeds `Plane::local_intersect` (`chapter_09/src/shapes/plane.rs:49`):
no intersection when the direction's `y` is within `EPSILON` of zero,
otherwise the single root `t = -origin.y / direction.y` tagged with the
plane itself. -/
def Plane.local_intersect (p : Plane) (ray : Ray) :
    Option (List (Intersection Plane)) :=
  if qabs ray.direction.y < EPSILON then none
  else some [⟨qdiv (-ray.origin.y) ray.direction.y, p⟩]

/-- The `Gradient` pattern of `src/patterns/gradient.rs` (the `Uuid` identity
is embedded as a number). -/
structure Gradient where
  id : Nat
  a : Color
  b : Color
  transform : Mat4
  deriving DecidableEq, Repr

/-- Embeds `Gradient::pattern_at` (`src/patterns/gradient.rs:45`):
`a + (b - a) * (x - floor x)` along the local x-axis. -/
def Gradient.pattern_at (g : Gradient) (point : Point) : Color :=
  g.a + (g.b - g.a) * qsub point.x (Rat.floor point.x : ℚ)

/-- Modelled from the spec: the CSG boolean operation (the chapter-16 CSG
source is not among the staged files). -/
inductive Operation where
  | union
  | intersection
  | difference
  deriving DecidableEq, Repr

/-- Modelled from the spec (§4.2): the CSG filter predicate
`intersection_allowed(op, lhit, inl, inr)`. -/
def allowed : Operation → Bool → Bool → Bool → Bool
  | .union, lhit, inl, inr => (lhit && !inr) || (!lhit && !inl)
  | .intersection, lhit, inl, inr => (lhit && inr) || (!lhit && inl)
  | .difference, lhit, inl, inr => (lhit && !inr) || (!lhit && inl)

/-- Modelled from the spec (§4.4): the `Camera` with its pixel counts, the
field-of-view-derived cached scalars and the cached inverse view transform
(`camera.rs` is not among the staged files; the transcendental derivation of
`pixel_size`/`half_width`/`half_height` happens at out-of-scope construction
time, so the embedding carries the cached values). -/
structure Camera where
  hsize : Nat
  vsize : Nat
  pixel_size : ℚ
  half_width : ℚ
  half_height : ℚ
  inv_transform : Mat4
  deriving DecidableEq

/-- Modelled from the spec (§4.4): `Camera::ray_for_pixel` — the ray from the
camera origin through the center of the pixel on the canvas plane one unit in
front of the camera. -/
def Camera.ray_for_pixel (c : Camera) (px py : Nat) : Ray :=
  let xoffset := qmul (qadd (px : ℚ) (mkRat 1 2)) c.pixel_size
  let yoffset := qmul (qadd (py : ℚ) (mkRat 1 2)) c.pixel_size
  let world_x := qsub c.half_width xoffset
  let world_y := qsub c.half_height yoffset
  let pixel := c.inv_transform.mulPoint ⟨world_x, world_y, -1⟩
  let origin := c.inv_transform.mulPoint ⟨0, 0, 0⟩
  let direction := (pixel - origin).normalize
  ⟨origin, direction⟩

/-- The canvas: width, height and the row-major pixel grid. -/
structure Canvas where
  width : Nat
  height : Nat
  pixels : List Color
  deriving DecidableEq

/-- Color of the pixel with flattened row-major index `idx`; a panic inside
`color_at` (missing light) propagates as an error exactly as a Rust panic
aborts either renderer. -/
def Camera.pixel_color (c : Camera) (w : World) (idx : Nat) : Except String Color :=
  w.color_at (c.ray_for_pixel (idx % c.hsize) (idx / c.hsize))

/-- Modelled from the spec (§4.4): the sequential `Camera::render` — every
pixel in row-major order. -/
def Camera.render (c : Camera) (w : World) : Except String Canvas := do
  let pixels ← (List.range (c.hsize * c.vsize)).mapM (c.pixel_color w)
  pure ⟨c.hsize, c.vsize, pixels⟩

/-- Modelled from the spec (§4.4): the partition of a flattened index list
into contiguous batches of size `n` (`n = 0` keeps the list whole, the
"whole image" batch). -/
def batches (n : Nat) (l : List α) : List (List α) :=
  match l with
  | [] => []
  | x :: xs =>
    match n with
    | 0 => [x :: xs]
    | m + 1 => (x :: xs).take (m + 1) :: batches (m + 1) ((x :: xs).drop (m + 1))
  termination_by l.length
  decreasing_by
    simp only [List.length_drop, List.length_cons]
    omega

/-- Modelled from the spec (§4.4): `Camera::render_parallel` — the flattened
pixel index space is cut into contiguous batches, each batch is rendered
independently against the same read-only world and camera, and the disjoint
batch results are reassembled in index order. -/
def Camera.render_parallel (c : Camera) (w : World) (batch_size : Nat) :
    Except String Canvas := do
  let parts ← (batches batch_size (List.range (c.hsize * c.vsize))).mapM
    fun b => b.mapM (c.pixel_color w)
  pure ⟨c.hsize, c.vsize, parts.flatten⟩

/-- A `f64` parametric distance as the sort comparator sees it: either a
genuine (finite) number or `NaN`. -/
inductive FT where
  | nan : FT
  | val : ℚ → FT
  deriving DecidableEq, Repr

/-- The `PartialOrd::partial_cmp` of `f64` distances: `none` whenever either
side is `NaN`. -/
def FT.pcmp : FT → FT → Option Ordering
  | .val a, .val b =>
    some (if a < b then Ordering.lt else if a = b then Ordering.eq else Ordering.gt)
  | _, _ => none

/-- The source's comparator closure `|a, b| a.partial_cmp(b).unwrap()`: the
`unwrap` panic is an error. -/
def cmpUnwrap (a b : FT) : Except String Ordering :=
  match FT.pcmp a b with
  | some o => Except.ok o
  | none => Except.error "called Option::unwrap() on a None value"

/-- Ordered insertion driven by the fallible comparator: the element is
placed before the first entry it does not compare greater than; a comparator
panic propagates. -/
def orderedInsertE (a : FT) : List FT → Except String (List FT)
  | [] => Except.ok [a]
  | b :: l =>
    match cmpUnwrap a b with
    | Except.error e => Except.error e
    | Except.ok Ordering.gt =>
      match orderedInsertE a l with
      | Except.error e => Except.error e
      | Except.ok l' => Except.ok (b :: l')
    | Except.ok _ => Except.ok (a :: b :: l)

/-- The stable sort `sort_by` with the fallible comparator: any comparator
panic aborts the sort. -/
def sortE : List FT → Except String (List FT)
  | [] => Except.ok []
  | a :: l =>
    match sortE l with
    | Except.error e => Except.error e
    | Except.ok l' => orderedInsertE a l'

/-- The `intersect_world` aggregation and sort over objects whose reported
distances may be `NaN`, keeping the fallibility of the source's
`partial_cmp(..).unwrap()` comparator explicit. -/
def intersect_world_nan (objects : List (Ray → Option (List FT))) (r : Ray) :
    Except String (Option (List FT)) :=
  let xs := objects.flatMap fun o => (o r).getD []
  if xs.isEmpty then Except.ok none
  else
    match sortE xs with
    | Except.error e => Except.error e
    | Except.ok sorted => Except.ok (some sorted)

instance {α : Type} : IsTotal (Intersection α) (fun a b => a.t ≤ b.t) :=
  ⟨fun a b => le_total a.t b.t⟩

instance {α : Type} : IsTrans (Intersection α) (fun a b => a.t ≤ b.t) :=
  ⟨fun _ _ _ h₁ h₂ => le_trans h₁ h₂⟩

/-! ## Bridge lemmas: the kernel-reducible scalar operations agree with the
field operations of `ℚ`. -/

theorem qadd_eq (a b : ℚ) : qadd a b = a + b := by
  have ha : (a.den : ℚ) ≠ 0 := Nat.cast_ne_zero.mpr a.den_nz
  have hb : (b.den : ℚ) ≠ 0 := Nat.cast_ne_zero.mpr b.den_nz
  have hA : (a.num : ℚ) = a * a.den := (div_eq_iff ha).mp (Rat.num_div_den a)
  have hB : (b.num : ℚ) = b * b.den := (div_eq_iff hb).mp (Rat.num_div_den b)
  rw [qadd, Rat.mkRat_eq_div]
  push_cast
  rw [div_eq_iff (mul_ne_zero ha hb), hA, hB]
  ring

theorem qsub_eq (a b : ℚ) : qsub a b = a - b := by
  have ha : (a.den : ℚ) ≠ 0 := Nat.cast_ne_zero.mpr a.den_nz
  have hb : (b.den : ℚ) ≠ 0 := Nat.cast_ne_zero.mpr b.den_nz
  have hA : (a.num : ℚ) = a * a.den := (div_eq_iff ha).mp (Rat.num_div_den a)
  have hB : (b.num : ℚ) = b * b.den := (div_eq_iff hb).mp (Rat.num_div_den b)
  rw [qsub, Rat.mkRat_eq_div]
  push_cast
  rw [div_eq_iff (mul_ne_zero ha hb), hA, hB]
  ring

theorem qmul_eq (a b : ℚ) : qmul a b = a * b := by
  have ha : (a.den : ℚ) ≠ 0 := Nat.cast_ne_zero.mpr a.den_nz
  have hb : (b.den : ℚ) ≠ 0 := Nat.cast_ne_zero.mpr b.den_nz
  have hA : (a.num : ℚ) = a * a.den := (div_eq_iff ha).mp (Rat.num_div_den a)
  have hB : (b.num : ℚ) = b * b.den := (div_eq_iff hb).mp (Rat.num_div_den b)
  rw [qmul, Rat.mkRat_eq_div]
  push_cast
  rw [div_eq_iff (mul_ne_zero ha hb), hA, hB]
  ring

theorem qdiv_eq (a b : ℚ) : qdiv a b = a / b := by
  rcases eq_or_ne b 0 with rfl | hb
  · show Rat.divInt _ (_ * (0 : ℚ).num) = _
    norm_num [Rat.divInt_eq_div]
  · have ha : (a.den : ℚ) ≠ 0 := Nat.cast_ne_zero.mpr a.den_nz
    have hbd : (b.den : ℚ) ≠ 0 := Nat.cast_ne_zero.mpr b.den_nz
    have hbn : (b.num : ℚ) ≠ 0 := by
      exact_mod_cast Rat.num_ne_zero.mpr hb
    have hA : (a.num : ℚ) = a * a.den := (div_eq_iff ha).mp (Rat.num_div_den a)
    have hB : (b.num : ℚ) = b * b.den := (div_eq_iff hbd).mp (Rat.num_div_den b)
    rw [qdiv, Rat.divInt_eq_div]
    push_cast
    rw [div_eq_div_iff (mul_ne_zero ha hbn) hb, hA, hB]
    ring

theorem qabs_eq (a : ℚ) : qabs a = |a| := by
  rw [qabs]
  split
  · exact (abs_of_neg (by assumption)).symm
  · exact (abs_of_nonneg (le_of_not_lt (by assumption))).symm

theorem ratFloor_eq (q : ℚ) : Rat.floor q = ⌊q⌋ := rfl

/-! ## The claims. -/

/-- C1: the CSG filter predicate `allowed(operation, hit_is_left, inside_left,
inside_right)` matches the spec's three boolean formulas on all 24 cases:
Union keeps iff `(lhit ∧ ¬inr) ∨ (¬lhit ∧ ¬inl)`, Intersection keeps iff
`(lhit ∧ inr) ∨ (¬lhit ∧ inl)`, Difference keeps iff
`(lhit ∧ ¬inr) ∨ (¬lhit ∧ inl)`. -/
theorem csg_allowed_truth_table :
    ∀ (lhit inl inr : Bool),
      (allowed Operation.union lhit inl inr = true ↔
        ((lhit = true ∧ inr = false) ∨ (lhit = false ∧ inl = false))) ∧
      (allowed Operation.intersection lhit inl inr = true ↔
        ((lhit = true ∧ inr = true) ∨ (lhit = false ∧ inl = true))) ∧
      (allowed Operation.difference lhit inl inr = true ↔
        ((lhit = true ∧ inr = false) ∨ (lhit = false ∧ inl = true))) := by
  decide

/-- C7: `Plane::local_intersect` returns `none` exactly when the absolute
value of the direction's y-component is below `EPSILON` (in particular for a
y-component of exactly `0`); otherwise exactly one intersection at
`t = -origin.y / direction.y` tagged with the plane itself; the ray from
`(0,1,0)` toward `(0,-1,0)` meets the plane exactly once at `t = 1`. -/
theorem plane_local_intersect_spec :
    (∀ (p : Plane) (r : Ray),
        p.local_intersect r = none ↔ |r.direction.y| < EPSILON) ∧
    (∀ (p : Plane) (r : Ray), r.direction.y = 0 → p.local_intersect r = none) ∧
    (∀ (p : Plane) (r : Ray), ¬|r.direction.y| < EPSILON →
        p.local_intersect r =
          some [⟨-r.origin.y / r.direction.y, p⟩]) ∧
    (∀ (p : Plane),
        p.local_intersect (Ray.mk ⟨0, 1, 0⟩ ⟨0, -1, 0⟩) = some [⟨1, p⟩]) := by
  have habs : ∀ r : Ray, qabs r.direction.y = |r.direction.y| :=
    fun r => qabs_eq r.direction.y
  refine ⟨fun p r => ?_, fun p r h => ?_, fun p r h => ?_, fun p => ?_⟩
  · by_cases h : |r.direction.y| < EPSILON <;>
      simp [Plane.local_intersect, habs, h]
  · simp [Plane.local_intersect, h]
    decide
  · simp [Plane.local_intersect, habs, h, qdiv_eq]
  · show (if _ then _ else _) = _
    rw [if_neg (by decide)]
    norm_num [qdiv]

/-- C8: `Gradient::pattern_at` computes `a + (b - a) * (x - ⌊x⌋)` from the
local point's x-coordinate, and is therefore periodic with period 1 along the
local x-axis. -/
theorem gradient_pattern_at_spec :
    (∀ (g : Gradient) (p : Point),
        g.pattern_at p = g.a + (g.b - g.a) * (p.x - (⌊p.x⌋ : ℚ))) ∧
    (∀ (g : Gradient) (p : Point),
        g.pattern_at ⟨p.x + 1, p.y, p.z⟩ = g.pattern_at p) := by
  have key : ∀ (g : Gradient) (p : Point),
      g.pattern_at p = g.a + (g.b - g.a) * (p.x - (⌊p.x⌋ : ℚ)) := by
    intro g p
    rw [Gradient.pattern_at, qsub_eq, ratFloor_eq]
  refine ⟨key, fun g p => ?_⟩
  rw [key, key]
  have hx : (p.x + 1) - (⌊(p.x + 1 : ℚ)⌋ : ℚ) = p.x - (⌊p.x⌋ : ℚ) := by
    rw [Int.floor_add_one]
    push_cast
    ring
  simp only [hx]

/-- C3: `World::intersect_world` returns `none` exactly when no object yields
an intersection; otherwise it returns the aggregation of every object's
intersections sorted ascending by `t`; the canonical default world and the
ray from `(0,0,-5)` toward `(0,0,1)` produce exactly the four intersections
`t = [4, 4.5, 5.5, 6]` in that order. -/
theorem intersect_world_spec :
    (∀ (w : World) (r : Ray),
        w.intersect_world r = none ↔
          ∀ o ∈ w.objects, (o.intersect r).getD [] = []) ∧
    (∀ (w : World) (r : Ray) (xs : List (Intersection Sphere)),
        w.intersect_world r = some xs →
          xs.Perm (w.objects.flatMap fun o => (o.intersect r).getD []) ∧
          List.Sorted (fun a b : Intersection Sphere => a.t ≤ b.t) xs) ∧
    ((World.default.intersect_world (Ray.mk ⟨0, 0, -5⟩ ⟨0, 0, 1⟩)).map
        (List.map Intersection.t) = some [4, mkRat 9 2, mkRat 11 2, 6]) := by
  refine ⟨fun w r => ?_, fun w r xs h => ?_, by decide⟩
  · by_cases h : (w.objects.flatMap fun o => (o.intersect r).getD []) = []
    · constructor
      · intro _
        exact List.flatMap_eq_nil_iff.mp h
      · intro _
        simp [World.intersect_world, h]
    · constructor
      · intro hnone
        exfalso
        simp [World.intersect_world, List.isEmpty_iff, h] at hnone
      · intro hall
        exact absurd (List.flatMap_eq_nil_iff.mpr hall) h
  · simp only [World.intersect_world] at h
    by_cases he : (w.objects.flatMap fun o => (o.intersect r).getD []) = []
    · simp [he] at h
    · rw [if_neg (by simpa [List.isEmpty_iff] using he)] at h
      have hx : xs =
          (w.objects.flatMap fun o => (o.intersect r).getD []).insertionSort
            (fun a b => a.t ≤ b.t) := by
        injection h with h'
        exact h'.symm
      subst hx
      exact ⟨List.perm_insertionSort _ _, List.sorted_insertionSort _ _⟩

/-- C4: with a light present, `World::is_shadow(p)` is `true` exactly when the
normalized ray from `p` toward the light has a hit whose `t` is strictly less
than the point-to-light distance (so a missing world intersection or a missing
hit means not shadowed, and the call never fails); in the default world
`(0,10,0)`, `(-20,20,-20)` and `(-2,2,-2)` are unshadowed and `(10,-10,10)` is
shadowed. -/
theorem is_shadow_spec :
    (∀ (w : World) (light : PointLight) (p : Point), w.light = some light →
        (w.is_shadow p = Except.ok true ↔
          ∃ xs h,
            w.intersect_world (Ray.mk p ((light.position - p).normalize)) =
              some xs ∧
            Intersection.hit xs = some h ∧
            h.t < (light.position - p).magnitude)) ∧
    (∀ (w : World) (light : PointLight) (p : Point), w.light = some light →
        w.is_shadow p = Except.ok true ∨ w.is_shadow p = Except.ok false) ∧
    World.default.is_shadow ⟨0, 10, 0⟩ = Except.ok false ∧
    World.default.is_shadow ⟨10, -10, 10⟩ = Except.ok true ∧
    World.default.is_shadow ⟨-20, 20, -20⟩ = Except.ok false ∧
    World.default.is_shadow ⟨-2, 2, -2⟩ = Except.ok false := by
  refine ⟨fun w light p hL => ?_, fun w light p hL => ?_,
    by decide, by decide, by decide, by decide⟩
  · simp only [World.is_shadow, hL]
    rcases hx : w.intersect_world (Ray.mk p (light.position - p).normalize)
      with _ | xs
    · simp [hx]
    · rcases hh : Intersection.hit xs with _ | hda
      · simp [hh]
      · simp [hh, decide_eq_true_iff]
  · simp only [World.is_shadow, hL]
    rcases hx : w.intersect_world (Ray.mk p (light.position - p).normalize)
      with _ | xs
    · right; rfl
    · rcases hh : Intersection.hit xs with _ | hda
      · right; simp [hh]
      · by_cases hlt : hda.t < (light.position - p).magnitude
        · left; simp [hh, hlt]
        · right; simp [hh, hlt]

/-- C5: shading or shadow-testing a world without a light fails with the
source's `expect` panic rather than returning a default; with a light,
`shade_hit` runs the shadow test at the shadow-offset point `over_point`
(the raw hit point of the `Computations` does not influence the result). -/
theorem shade_hit_missing_light_and_over_point :
    (∀ (w : World), w.light = none → ∀ comps : Computations,
        w.shade_hit comps = Except.error "No light in world!") ∧
    (∀ (w : World), w.light = none → ∀ p : Point,
        w.is_shadow p = Except.error "No light in world!") ∧
    (∀ (w : World) (light : PointLight) (comps : Computations),
        w.light = some light →
        w.shade_hit comps =
          match w.is_shadow comps.over_point with
          | Except.error e => Except.error e
          | Except.ok shadowed =>
            Except.ok (lighting comps.object.material light comps.over_point
              comps.eyev comps.normalv shadowed)) ∧
    (∀ (w : World) (c₁ c₂ : Computations),
        c₁.object = c₂.object → c₁.over_point = c₂.over_point →
        c₁.eyev = c₂.eyev → c₁.normalv = c₂.normalv →
        w.shade_hit c₁ = w.shade_hit c₂) := by
  refine ⟨fun w hL comps => ?_, fun w hL p => ?_,
    fun w light comps hL => ?_, fun w c₁ c₂ h₁ h₂ h₃ h₄ => ?_⟩
  · simp [World.shade_hit, World.is_shadow, hL]
  · simp [World.is_shadow, hL]
  · rw [World.shade_hit]
    rcases h : w.is_shadow comps.over_point with e | sh
    · rfl
    · simp [hL]
  · rw [World.shade_hit, World.shade_hit, h₁, h₂, h₃, h₄]

/-- C6: `World::color_at` returns black when the ray has no hit (no
intersection at all, or only negative-`t` intersections); when a hit exists it
returns `shade_hit` of the hit's prepared computations. -/
theorem color_at_spec :
    (∀ (w : World) (r : Ray), w.intersect_world r = none →
        w.color_at r = Except.ok Colors.BLACK) ∧
    (∀ (w : World) (r : Ray) (xs : List (Intersection Sphere)),
        w.intersect_world r = some xs → (∀ i ∈ xs, i.t < 0) →
        w.color_at r = Except.ok Colors.BLACK) ∧
    (∀ (w : World) (r : Ray) (xs : List (Intersection Sphere))
        (i : Intersection Sphere),
        w.intersect_world r = some xs → Intersection.hit xs = some i →
        w.color_at r = w.shade_hit (i.prepare_computations r)) := by
  refine ⟨fun w r hx => ?_, fun w r xs hx hneg => ?_,
    fun w r xs i hx hh => ?_⟩
  · simp [World.color_at, hx]
  · have hh : Intersection.hit xs = none := by
      rw [Intersection.hit, List.find?_eq_none]
      intro x hxmem
      simpa using not_le.mpr (hneg x hxmem)
    simp [World.color_at, hx, hh]
  · simp [World.color_at, hx, hh]

/-- C10: in a world without a light, `color_at` still returns black whenever
the ray has no hit, and fails (with the `is_shadow` expect panic reached
through `shade_hit`) exactly when the ray has a hit — the missing-light
violation is detected only on rays that hit geometry. -/
theorem color_at_missing_light_spec :
    (∀ (w : World) (r : Ray), w.light = none → w.intersect_world r = none →
        w.color_at r = Except.ok Colors.BLACK) ∧
    (∀ (w : World) (r : Ray) (xs : List (Intersection Sphere)),
        w.light = none → w.intersect_world r = some xs →
        Intersection.hit xs = none →
        w.color_at r = Except.ok Colors.BLACK) ∧
    (∀ (w : World) (r : Ray) (xs : List (Intersection Sphere))
        (i : Intersection Sphere),
        w.light = none → w.intersect_world r = some xs →
        Intersection.hit xs = some i →
        w.color_at r = Except.error "No light in world!") := by
  refine ⟨fun w r hL hx => ?_, fun w r xs hL hx hh => ?_,
    fun w r xs i hL hx hh => ?_⟩
  · simp [World.color_at, hx]
  · simp [World.color_at, hx, hh]
  · simp [World.color_at, hx, hh, World.shade_hit, World.is_shadow, hL]

/-- Rendering the batches of an index list and reassembling the batch results
equals rendering the whole list: batch boundaries are invisible to the
output. -/
theorem mapM_batches_flatten (f : α → Except String β) :
    ∀ (n : Nat) (l : List α),
      (((batches n l).mapM fun b => b.mapM f) >>= fun parts =>
          pure parts.flatten) = l.mapM f
  | _, [] => by
    simp only [batches, List.mapM_nil, pure_bind, List.flatten_nil]
  | 0, x :: xs => by
    simp only [batches, List.mapM_cons, List.mapM_nil, pure_bind, bind_assoc,
      List.flatten_cons, List.flatten_nil, List.append_nil, bind_pure]
  | (m + 1), x :: xs => by
    rw [batches, List.mapM_cons]
    have ih := mapM_batches_flatten f (m + 1) ((x :: xs).drop (m + 1))
    have step : ∀ a : List β,
        (((batches (m + 1) ((x :: xs).drop (m + 1))).mapM fun b => b.mapM f) >>=
            fun parts => (pure (a ++ parts.flatten) : Except String (List β))) =
          (((x :: xs).drop (m + 1)).mapM f >>= fun rest => pure (a ++ rest)) := by
      intro a
      rw [← ih, bind_assoc]
      simp
    simp only [bind_assoc, pure_bind, List.flatten_cons]
    simp only [step]
    rw [← List.mapM_append, List.take_append_drop]
  termination_by _ l => l.length
  decreasing_by
    simp only [List.length_drop, List.length_cons]
    omega

/-- C2: `Camera::render_parallel` produces exactly the canvas of the
sequential `Camera::render` on the same world and camera, for every batch
size (batch size `0` standing for the whole-image batch), pixel for pixel. -/
theorem render_parallel_eq_render :
    ∀ (c : Camera) (w : World) (batch_size : Nat),
      c.render_parallel w batch_size = c.render w := by
  intro c w b
  rw [Camera.render_parallel, Camera.render,
    ← mapM_batches_flatten (c.pixel_color w) b (List.range (c.hsize * c.vsize)),
    bind_assoc]
  simp

/-- The fallible comparator succeeds on any two non-`NaN` distances. -/
theorem cmpUnwrap_ok (a b : FT) (ha : a ≠ FT.nan) (hb : b ≠ FT.nan) :
    ∃ o, cmpUnwrap a b = Except.ok o := by
  cases a with
  | nan => exact absurd rfl ha
  | val x =>
    cases b with
    | nan => exact absurd rfl hb
    | val y => exact ⟨_, rfl⟩

/-- Inserting a non-`NaN` element into a `NaN`-free list succeeds, and the
result's elements come from the inserted element and the list. -/
theorem orderedInsertE_ok (a : FT) (ha : a ≠ FT.nan) :
    ∀ l : List FT, FT.nan ∉ l →
      ∃ l', orderedInsertE a l = Except.ok l' ∧ ∀ x ∈ l', x ∈ a :: l := by
  intro l
  induction l with
  | nil =>
    intro _
    exact ⟨[a], rfl, by simp⟩
  | cons b t ih =>
    intro hmem
    have hb : b ≠ FT.nan := by
      intro h
      exact hmem (by simp [h])
    have ht : FT.nan ∉ t := fun h => hmem (List.mem_cons_of_mem _ h)
    obtain ⟨o, ho⟩ := cmpUnwrap_ok a b ha hb
    cases o with
    | gt =>
      obtain ⟨l', hl', hsub⟩ := ih ht
      refine ⟨b :: l', by simp [orderedInsertE, ho, hl'], ?_⟩
      intro x hx
      rcases List.mem_cons.mp hx with rfl | hx
      · simp
      · rcases List.mem_cons.mp (hsub x hx) with rfl | hx'
        · simp
        · simp [hx']
    | lt => exact ⟨a :: b :: t, by simp [orderedInsertE, ho], fun x hx => hx⟩
    | eq => exact ⟨a :: b :: t, by simp [orderedInsertE, ho], fun x hx => hx⟩

/-- Sorting a `NaN`-free list with the fallible comparator succeeds, and the
result's elements come from the list. -/
theorem sortE_ok :
    ∀ l : List FT, FT.nan ∉ l →
      ∃ l', sortE l = Except.ok l' ∧ ∀ x ∈ l', x ∈ l := by
  intro l
  induction l with
  | nil =>
    intro _
    exact ⟨[], rfl, by simp⟩
  | cons a t ih =>
    intro hmem
    have ha : a ≠ FT.nan := by
      intro h
      exact hmem (by simp [h])
    have ht : FT.nan ∉ t := fun h => hmem (List.mem_cons_of_mem _ h)
    obtain ⟨l', hl', hsub⟩ := ih ht
    have hnan' : FT.nan ∉ l' := fun h => ht (hsub _ h)
    obtain ⟨l'', hl'', hsub'⟩ := orderedInsertE_ok a ha l' hnan'
    refine ⟨l'', by simp [sortE, hl', hl''], ?_⟩
    intro x hx
    rcases List.mem_cons.mp (hsub' x hx) with rfl | hx'
    · simp
    · exact List.mem_cons_of_mem _ (hsub _ hx')

/-- C9: as long as every object reports only non-`NaN` parametric distances,
the `partial_cmp(..).unwrap()` comparator inside `intersect_world`'s sort can
never panic and the aggregation is total; an object that reports a `NaN`
distance next to another intersection makes the sort panic with the `unwrap`
failure. -/
theorem intersect_world_sort_totality :
    (∀ (objects : List (Ray → Option (List FT))) (r : Ray),
        (∀ o ∈ objects, ∀ ts, o r = some ts → FT.nan ∉ ts) →
        ∃ res, intersect_world_nan objects r = Except.ok res) ∧
    (intersect_world_nan [fun _ => some [FT.nan, FT.val 1]]
        (Ray.mk ⟨0, 0, 0⟩ ⟨0, 0, 0⟩) =
      Except.error "called Option::unwrap() on a None value") := by
  constructor
  · intro objects r h
    by_cases he : (objects.flatMap fun o => (o r).getD []) = []
    · exact ⟨none, by simp [intersect_world_nan, he]⟩
    · have hnan : FT.nan ∉ objects.flatMap fun o => (o r).getD [] := by
        intro hmem
        rcases List.mem_flatMap.mp hmem with ⟨o, ho, hin⟩
        rcases hor : o r with _ | ts
        · rw [hor] at hin
          simp at hin
        · rw [hor] at hin
          exact h o ho ts hor (by simpa using hin)
      obtain ⟨l', hl', _⟩ := sortE_ok _ hnan
      exact ⟨some l',
        by simp [intersect_world_nan, List.isEmpty_iff, he, hl']⟩
  · decide

end RusticRay
